import Mathlib

set_option maxRecDepth 8000

/-!
Verification development for the manifest-interpretation core
(`src/cargo/util/toml.rs`): a shallow embedding of its data model and
operations, followed by theorems about the interpreter's behaviour.
Filesystem paths are modelled as component lists, hash maps as association
lists, and the few helpers living outside this file (in `core`/`util`) are
modelled from the specification, each marked as such in its doc comment.
-/

namespace CargoToml

/-- A filesystem path, modelling `std::path::PathBuf`: an absolute flag plus
the list of components (`.` and `..` are kept as literal components until
`normalize_path` removes them). -/
structure FsPath where
  abs : Bool
  comps : List String
deriving DecidableEq

/-- `Path::join`: joining an absolute path replaces the receiver entirely. -/
def FsPath.join (p q : FsPath) : FsPath :=
  if q.abs then q else ⟨p.abs, p.comps ++ q.comps⟩

/-- Modelled from the spec: `util::normalize_path` lives outside src/; per the
spec and the comment at its call site it removes `.` components and resolves
`..` components lexically, so that two spellings of one directory produce one
canonical path. -/
def normalize_path (p : FsPath) : FsPath :=
  ⟨p.abs, p.comps.foldl (fun acc c =>
    if c = "." then acc
    else if c = ".." then acc.dropLast
    else acc ++ [c]) []⟩

/-- Join a component list with `/` separators. -/
def joinComps : List String → String
  | [] => ""
  | [x] => x
  | x :: xs => x ++ "/" ++ joinComps xs

/-- `Path::display` for paths whose components are all UTF-8. -/
def FsPath.display (p : FsPath) : String :=
  (if p.abs then "/" else "") ++ joinComps p.comps

/-- The characters of a file name before its final `.`; the whole name when
there is no `.` or when the part before the final `.` is empty
(`Path::file_stem` on a plain file name). -/
def stemChars (l : List Char) : List Char :=
  match l.reverse.dropWhile (fun c => ¬(c = '.')) with
  | [] => l
  | _ :: rest => if rest = [] then l else rest.reverse

/-- `Path::file_stem`: stem of the last component, none for an empty path. -/
def FsPath.file_stem (p : FsPath) : Option String :=
  p.comps.getLast?.map (fun s => String.mk (stemChars s.data))

/-- `s.trim().is_empty()`: the string is blank (all whitespace). -/
def trimEmpty (s : String) : Bool :=
  s.data.all (fun c => c.isWhitespace)

/-- Existence check against a filesystem snapshot, modelling the stat-style
probes (`fs::metadata(..).is_ok()`, `Path::exists`). -/
def fsExists (fs : List FsPath) (p : FsPath) : Bool :=
  decide (p ∈ fs)

/-- `core::GitReference`. -/
inductive GitReference where
  | Branch (name : String)
  | Tag (name : String)
  | Rev (rev : String)
deriving DecidableEq

/-- `core::SourceId`, reduced to the source identity it denotes: a registry
URL, a canonical filesystem path, or a git URL plus reference. -/
inductive SourceId where
  | registry (url : String)
  | path (p : FsPath)
  | git (url : String) (reference : GitReference)
deriving DecidableEq

def SourceId.is_path : SourceId → Bool
  | .path _ => true
  | _ => false

/-- Modelled from the spec: `SourceId::for_path` (in `core`, outside src/)
builds a path-kind source identity from an already-normalized path. -/
def SourceId.for_path (p : FsPath) : Except String SourceId :=
  .ok (.path p)

def SourceId.for_git (url : String) (reference : GitReference) : SourceId :=
  .git url reference

/-- Modelled from the spec: the default registry source identity. -/
def SourceId.crates_io : Except String SourceId :=
  .ok (.registry "registry+https://github.com/rust-lang/crates.io-index")

/-- Modelled from the spec: `ToUrl` canonicalization of git URLs happens
outside src/; modelled as accepting the URL string unchanged. -/
def to_url (s : String) : Except String String :=
  .ok s

/-- Modelled from the spec: `Platform::from_str` (cfg-expression parsing) is
outside src/; modelled as accepting the platform string unchanged. -/
def parsePlatform (s : String) : Except String String :=
  .ok s

/-- `core::dependency::Kind`. -/
inductive Kind where
  | Normal
  | Development
  | Build
deriving DecidableEq

/-- `core::PackageId`, reduced to the fields this file uses. -/
structure PackageId where
  name : String
  version : String
  source_id : SourceId
deriving DecidableEq

/-- `core::Dependency`, reduced to the fields this file reads and writes. -/
structure Dependency where
  name : String
  version : Option String
  source_id : SourceId
  features : List String
  default_features : Bool
  optional : Bool
  platform : Option String
  kind : Kind
deriving DecidableEq

/-- Modelled from the spec: `DependencyInner::parse` (in `core`, outside src/)
builds a dependency record from a name, optional version requirement and
source identity; version-requirement parse failures are not modelled. The
remaining fields start at their compiled-in defaults and are overwritten by
the `set_*` calls in `to_dependency`. -/
def DependencyInner.parse (name : String) (version : Option String)
    (source_id : SourceId) (_pkgid : Option PackageId) :
    Except String Dependency :=
  .ok { name := name, version := version, source_id := source_id,
        features := [], default_features := true, optional := false,
        platform := none, kind := Kind.Normal }

/-- `DetailedTomlDependency`; path values are modelled directly as `FsPath`,
standing for the `PathBuf` the string is converted into. -/
structure DetailedTomlDependency where
  version : Option String := none
  path : Option FsPath := none
  git : Option String := none
  branch : Option String := none
  tag : Option String := none
  rev : Option String := none
  features : Option (List String) := none
  optional : Option Bool := none
  default_features : Option Bool := none
  default_features2 : Option Bool := none
deriving DecidableEq

/-- `TomlDependency`: a bare version-requirement string or a detailed table. -/
inductive TomlDependency where
  | Simple (version : String)
  | Detailed (details : DetailedTomlDependency)
deriving DecidableEq

/-- `U32OrBool` (custom decoding of the `debug` profile key). -/
inductive U32OrBool where
  | u32 (value : Nat)
  | bool (value : Bool)
deriving DecidableEq

/-- `TomlProfile`; `opt-level` is the already-decoded `TomlOptLevel` string. -/
structure TomlProfile where
  opt_level : Option String := none
  lto : Option Bool := none
  codegen_units : Option Nat := none
  debug : Option U32OrBool := none
  debug_assertions : Option Bool := none
  rpath : Option Bool := none
  panic : Option String := none
  overflow_checks : Option Bool := none
deriving DecidableEq

/-- `TomlProfiles`: the five user-overridable profile sections. -/
structure TomlProfiles where
  test : Option TomlProfile := none
  doc : Option TomlProfile := none
  bench : Option TomlProfile := none
  dev : Option TomlProfile := none
  release : Option TomlProfile := none
deriving DecidableEq

/-- `core::manifest::Profile`. -/
structure Profile where
  opt_level : String
  lto : Bool
  codegen_units : Option Nat
  rustc_args : Option (List String)
  rustdoc_args : Option (List String)
  debuginfo : Option Nat
  debug_assertions : Bool
  overflow_checks : Bool
  rpath : Bool
  test : Bool
  doc : Bool
  run_custom_build : Bool
  check : Bool
  panic : Option String
deriving DecidableEq

/-- Modelled from the spec: the base compiled-in profile (in `core`, outside
src/) — no optimization, no extra build knobs, no panic-strategy override. -/
def Profile.base : Profile :=
  { opt_level := "0", lto := false, codegen_units := none,
    rustc_args := none, rustdoc_args := none, debuginfo := none,
    debug_assertions := false, overflow_checks := false, rpath := false,
    test := false, doc := false, run_custom_build := false, check := false,
    panic := none }

/-- Modelled from the spec: `Profile::default_dev`. -/
def Profile.default_dev : Profile :=
  { Profile.base with
      debuginfo := some 2
      debug_assertions := true
      overflow_checks := true }

/-- Modelled from the spec: `Profile::default_release`. -/
def Profile.default_release : Profile :=
  { Profile.base with opt_level := "3" }

/-- Modelled from the spec: `Profile::default_test`. -/
def Profile.default_test : Profile :=
  { Profile.default_dev with test := true }

/-- Modelled from the spec: `Profile::default_bench`. -/
def Profile.default_bench : Profile :=
  { Profile.default_release with test := true }

/-- Modelled from the spec: `Profile::default_doc`. -/
def Profile.default_doc : Profile :=
  { Profile.default_dev with doc := true }

/-- Modelled from the spec: `Profile::default_custom_build`. -/
def Profile.default_custom_build : Profile :=
  { Profile.default_dev with run_custom_build := true }

/-- Modelled from the spec: `Profile::default_check`. -/
def Profile.default_check : Profile :=
  { Profile.default_dev with check := true }

/-- Modelled from the spec: `Profile::default_doctest`. -/
def Profile.default_doctest : Profile :=
  { Profile.base with doc := true, debuginfo := some 2 }

/-- `core::Profiles`: the ten named profile slots. -/
structure Profiles where
  release : Profile
  dev : Profile
  test : Profile
  test_deps : Profile
  bench : Profile
  bench_deps : Profile
  doc : Profile
  custom_build : Profile
  check : Profile
  doctest : Profile
deriving DecidableEq

/-- The inner `merge` of `build_profiles`: overlay an optional user override
onto a compiled-in default profile. -/
def merge (profile : Profile) (toml : Option TomlProfile) : Profile :=
  match toml with
  | none => profile
  | some t =>
    let debug : Option (Option Nat) :=
      match t.debug with
      | some (.u32 d) => some (some d)
      | some (.bool true) => some (some 2)
      | some (.bool false) => some none
      | none => none
    { opt_level := t.opt_level.getD profile.opt_level
      lto := t.lto.getD profile.lto
      codegen_units := t.codegen_units
      rustc_args := none
      rustdoc_args := none
      debuginfo := debug.getD profile.debuginfo
      debug_assertions := t.debug_assertions.getD profile.debug_assertions
      overflow_checks := t.overflow_checks.getD profile.overflow_checks
      rpath := t.rpath.getD profile.rpath
      test := profile.test
      doc := profile.doc
      run_custom_build := profile.run_custom_build
      check := profile.check
      panic := t.panic <|> profile.panic }

/-- `build_profiles`: merge each named profile from its compiled-in default
and the matching user override, then force the panic strategy of the
test/bench/test-deps/bench-deps profiles back to the default. -/
def build_profiles (profiles : Option TomlProfiles) : Profiles :=
  let p := profiles
  let ps : Profiles :=
    { release := merge Profile.default_release (p.bind (fun x => x.release))
      dev := merge Profile.default_dev (p.bind (fun x => x.dev))
      test := merge Profile.default_test (p.bind (fun x => x.test))
      test_deps := merge Profile.default_dev (p.bind (fun x => x.dev))
      bench := merge Profile.default_bench (p.bind (fun x => x.bench))
      bench_deps := merge Profile.default_release (p.bind (fun x => x.release))
      doc := merge Profile.default_doc (p.bind (fun x => x.doc))
      custom_build := Profile.default_custom_build
      check := merge Profile.default_check (p.bind (fun x => x.dev))
      doctest := Profile.default_doctest }
  { ps with
      test := { ps.test with panic := none }
      bench := { ps.bench with panic := none }
      test_deps := { ps.test_deps with panic := none }
      bench_deps := { ps.bench_deps with panic := none } }

/-- `core::manifest::LibKind`. -/
inductive LibKind where
  | Lib
  | Dylib
  | ProcMacro
  | Rlib
  | Staticlib
  | Other (s : String)
deriving DecidableEq

/-- Modelled from the spec: `LibKind::from_str` (in `core`, outside src/)
maps a crate-type string to an output kind, keeping unknown strings. -/
def LibKind.from_str (s : String) : LibKind :=
  if s = "lib" then .Lib
  else if s = "dylib" then .Dylib
  else if s = "proc-macro" then .ProcMacro
  else if s = "rlib" then .Rlib
  else if s = "staticlib" then .Staticlib
  else .Other s

/-- The kind of a build target. -/
inductive TargetKind where
  | lib (kinds : List LibKind)
  | bin
  | example (kinds : List LibKind)
  | test
  | bench
  | custom_build
deriving DecidableEq

/-- `core::Target`, reduced to the fields this file reads and writes. -/
structure Target where
  name : String
  kind : TargetKind
  src_path : FsPath
  tested : Bool
  doc : Bool
  doctested : Bool
  benched : Bool
  harness : Bool
  for_host : Bool
  required_features : Option (List String)
deriving DecidableEq

def Target.is_custom_build (t : Target) : Bool :=
  match t.kind with
  | .custom_build => true
  | _ => false

/-- Modelled from the spec: `Target::lib_target` (in `core`, outside src/)
with the compiled-in per-kind flag defaults. -/
def Target.lib_target (name : String) (crate_targets : List LibKind)
    (src_path : FsPath) : Target :=
  { name := name, kind := .lib crate_targets, src_path := src_path,
    tested := true, doc := true, doctested := true, benched := true,
    harness := true, for_host := false, required_features := none }

/-- Modelled from the spec: `Target::bin_target`. -/
def Target.bin_target (name : String) (src_path : FsPath)
    (required_features : Option (List String)) : Target :=
  { name := name, kind := .bin, src_path := src_path,
    tested := true, doc := true, doctested := false, benched := true,
    harness := true, for_host := false, required_features := required_features }

/-- Modelled from the spec: `Target::example_target`. -/
def Target.example_target (name : String) (crate_targets : List LibKind)
    (src_path : FsPath) (required_features : Option (List String)) : Target :=
  { name := name, kind := .example crate_targets, src_path := src_path,
    tested := false, doc := false, doctested := false, benched := false,
    harness := true, for_host := false, required_features := required_features }

/-- Modelled from the spec: `Target::test_target`. -/
def Target.test_target (name : String) (src_path : FsPath)
    (required_features : Option (List String)) : Target :=
  { name := name, kind := .test, src_path := src_path,
    tested := true, doc := false, doctested := false, benched := false,
    harness := true, for_host := false, required_features := required_features }

/-- Modelled from the spec: `Target::bench_target`. -/
def Target.bench_target (name : String) (src_path : FsPath)
    (required_features : Option (List String)) : Target :=
  { name := name, kind := .bench, src_path := src_path,
    tested := false, doc := false, doctested := false, benched := true,
    harness := true, for_host := false, required_features := required_features }

/-- Modelled from the spec: `Target::custom_build_target`. -/
def Target.custom_build_target (name : String) (src_path : FsPath) : Target :=
  { name := name, kind := .custom_build, src_path := src_path,
    tested := false, doc := false, doctested := false, benched := false,
    harness := true, for_host := true, required_features := none }

/-- `StringOrBool` (custom decoding of the `build` key). -/
inductive StringOrBool where
  | string (s : String)
  | bool (b : Bool)
deriving DecidableEq

/-- `TomlTarget`; path values are modelled directly as `FsPath` (`PathValue`). -/
structure TomlTarget where
  name : Option String := none
  crate_type : Option (List String) := none
  crate_type2 : Option (List String) := none
  path : Option FsPath := none
  test : Option Bool := none
  doctest : Option Bool := none
  bench : Option Bool := none
  doc : Option Bool := none
  plugin : Option Bool := none
  proc_macro : Option Bool := none
  proc_macro2 : Option Bool := none
  harness : Option Bool := none
  required_features : Option (List String) := none
deriving DecidableEq

/-- `TomlTarget::name()`; the source panics when the name is absent, and every
call site has validated or synthesized a present name, so the panic is
modelled as the empty string. -/
def TomlTarget.nameStr (t : TomlTarget) : String :=
  match t.name with
  | some name => name
  | none => ""

/-- `TomlTarget::proc_macro()`: either spelling of the key. -/
def TomlTarget.procMacroFlag (t : TomlTarget) : Option Bool :=
  t.proc_macro <|> t.proc_macro2

def TomlTarget.validate_library_name (t : TomlTarget) : Except String Unit :=
  match t.name with
  | some name =>
    if trimEmpty name then .error "library target names cannot be empty."
    else if name.data.contains '-' then
      .error ("library target names cannot contain hyphens: " ++ name)
    else .ok ()
  | none => .ok ()

def TomlTarget.validate_binary_name (t : TomlTarget) : Except String Unit :=
  match t.name with
  | some name =>
    if trimEmpty name then .error "binary target names cannot be empty."
    else .ok ()
  | none => .error "binary target bin.name is required"

def TomlTarget.validate_example_name (t : TomlTarget) : Except String Unit :=
  match t.name with
  | some name =>
    if trimEmpty name then .error "example target names cannot be empty"
    else .ok ()
  | none => .error "example target example.name is required"

def TomlTarget.validate_test_name (t : TomlTarget) : Except String Unit :=
  match t.name with
  | some name =>
    if trimEmpty name then .error "test target names cannot be empty"
    else .ok ()
  | none => .error "test target test.name is required"

def TomlTarget.validate_bench_name (t : TomlTarget) : Except String Unit :=
  match t.name with
  | some name =>
    if trimEmpty name then .error "bench target names cannot be empty"
    else .ok ()
  | none => .error "bench target bench.name is required"

def TomlTarget.validate_crate_type (t : TomlTarget) : Except String Unit :=
  if t.plugin = some true ∧ t.procMacroFlag = some true then
    .error "lib.plugin and lib.proc-macro cannot both be true"
  else .ok ()

/-- `TomlPlatform`: a `target.<spec>` entry's dependency tables. -/
structure TomlPlatform where
  dependencies : Option (List (String × TomlDependency)) := none
  build_dependencies : Option (List (String × TomlDependency)) := none
  build_dependencies2 : Option (List (String × TomlDependency)) := none
  dev_dependencies : Option (List (String × TomlDependency)) := none
  dev_dependencies2 : Option (List (String × TomlDependency)) := none
deriving DecidableEq

/-- `TomlProject` (`[package]`/`[project]`); the version is the string of the
already-parsed semantic version. -/
structure TomlProject where
  name : String
  version : String
  authors : Option (List String) := none
  build : Option StringOrBool := none
  links : Option String := none
  exclude : Option (List String) := none
  include' : Option (List String) := none
  publish : Option Bool := none
  workspace : Option String := none
  description : Option String := none
  homepage : Option String := none
  documentation : Option String := none
  readme : Option String := none
  keywords : Option (List String) := none
  categories : Option (List String) := none
  license : Option String := none
  license_file : Option String := none
  repository : Option String := none
deriving DecidableEq

/-- `TomlWorkspace`. -/
structure TomlWorkspace where
  members : Option (List String) := none
  exclude : Option (List String) := none
deriving DecidableEq

/-- `TomlManifest`; hash-map-valued sections are modelled as association
lists in document order. -/
structure TomlManifest where
  package : Option TomlProject := none
  project : Option TomlProject := none
  profile : Option TomlProfiles := none
  lib : Option TomlTarget := none
  bin : Option (List TomlTarget) := none
  example' : Option (List TomlTarget) := none
  test : Option (List TomlTarget) := none
  bench : Option (List TomlTarget) := none
  dependencies : Option (List (String × TomlDependency)) := none
  dev_dependencies : Option (List (String × TomlDependency)) := none
  dev_dependencies2 : Option (List (String × TomlDependency)) := none
  build_dependencies : Option (List (String × TomlDependency)) := none
  build_dependencies2 : Option (List (String × TomlDependency)) := none
  features : Option (List (String × List String)) := none
  target : Option (List (String × TomlPlatform)) := none
  replace : Option (List (String × TomlDependency)) := none
  workspace : Option TomlWorkspace := none
  badges : Option (List (String × List (String × String))) := none
deriving DecidableEq

/-- Modelled from the spec: `PackageId::new` (in `core`, outside src/) pairs
the validated name and version with the source identity. -/
def TomlProject.to_package_id (p : TomlProject) (source_id : SourceId) :
    Except String PackageId :=
  .ok { name := p.name, version := p.version, source_id := source_id }

/-- `Layout`: the Layout Prober's inventory of candidate source files. -/
structure Layout where
  root : FsPath
  lib : Option FsPath := none
  bins : List FsPath := []
  examples : List FsPath := []
  tests : List FsPath := []
  benches : List FsPath := []
deriving DecidableEq

/-- The ambient state threaded through dependency resolution (`Context`);
the mutable `deps`, `nested_paths` and `warnings` vectors are carried as
explicit fields. -/
structure Context where
  pkgid : Option PackageId
  deps : List Dependency
  source_id : SourceId
  nested_paths : List FsPath
  warnings : List String
  platform : Option String
  layout : Layout
deriving DecidableEq

/-- `warnings.push(msg)`. -/
def Context.warn (cx : Context) (msg : String) : Context :=
  { cx with warnings := cx.warnings ++ [msg] }

def noSourceWarning (name : String) : String :=
  "dependency (" ++ name ++ ") specified without providing a local path, Git repository, or version to use. This will be considered an error in future versions"

def ignoredKeyWarning (keyName name : String) : String :=
  "key `" ++ keyName ++ "` is ignored for dependency (" ++ name ++ "). This will be considered an error in future versions"

def gitPathAmbiguousWarning (name : String) : String :=
  "dependency (" ++ name ++ ") specification is ambiguous. Only one of `git` or `path` is allowed. This will be considered an error in future versions"

def gitRefAmbiguousWarning (name : String) : String :=
  "dependency (" ++ name ++ ") specification is ambiguous. Only one of `branch`, `tag` or `rev` is allowed. This will be considered an error in future versions"

/-- `TomlDependency::to_dependency`: resolve one dependency declaration in
context, producing the dependency record and the updated context. -/
def TomlDependency.to_dependency (self : TomlDependency) (name : String)
    (cx : Context) (kind : Option Kind) :
    Except String (Dependency × Context) := do
  let details : DetailedTomlDependency :=
    match self with
    | .Simple version => { version := some version }
    | .Detailed details => details
  let cx :=
    if details.version.isNone ∧ details.path.isNone ∧ details.git.isNone then
      cx.warn (noSourceWarning name)
    else cx
  let cx :=
    if details.git.isNone then
      let gitOnlyKeys : List (Option String × String) :=
        [(details.branch, "branch"), (details.tag, "tag"),
         (details.rev, "rev")]
      gitOnlyKeys.foldl (fun cx kv =>
        if kv.1.isSome then cx.warn (ignoredKeyWarning kv.2 name) else cx) cx
    else cx
  let (new_source_id, cx) ←
    match details.git, details.path with
    | some git, maybe_path => do
      let cx :=
        if maybe_path.isSome then cx.warn (gitPathAmbiguousWarning name)
        else cx
      let n_details :=
        ([details.branch, details.tag, details.rev].filter
          (fun d => d.isSome)).length
      let cx :=
        if n_details > 1 then cx.warn (gitRefAmbiguousWarning name)
        else cx
      let reference :=
        (details.branch.map GitReference.Branch <|>
         details.tag.map GitReference.Tag <|>
         details.rev.map GitReference.Rev).getD
          (GitReference.Branch "master")
      let loc ← to_url git
      pure (SourceId.for_git loc reference, cx)
    | none, some path => do
      let cx := { cx with nested_paths := cx.nested_paths ++ [path] }
      if cx.source_id.is_path then
        let p := cx.layout.root.join path
        let p := normalize_path p
        let sid ← SourceId.for_path p
        pure (sid, cx)
      else
        pure (cx.source_id, cx)
    | none, none => do
      let sid ← SourceId.crates_io
      pure (sid, cx)
  let version := details.version
  let dep ← DependencyInner.parse name version new_source_id cx.pkgid
  let dep :=
    { dep with
        features := details.features.getD []
        default_features :=
          (details.default_features <|> details.default_features2).getD true
        optional := details.optional.getD false
        platform := cx.platform }
  let dep :=
    match kind with
    | some k => { dep with kind := k }
    | none => dep
  pure (dep, cx)

/-- `process_dependencies`: resolve every declaration of one dependency
table, pushing each resulting dependency onto the context. -/
def process_dependencies (cx : Context)
    (new_deps : Option (List (String × TomlDependency)))
    (kind : Option Kind) : Except String Context :=
  match new_deps with
  | none => .ok cx
  | some dependencies =>
    dependencies.foldlM (fun cx nv => do
      let (dep, cx) ← nv.2.to_dependency nv.1 cx kind
      pure { cx with deps := cx.deps ++ [dep] }) cx

/-- `inferred_lib_target`: synthesize a `[lib]` section from the prober. -/
def inferred_lib_target (name : String) (layout : Layout) : Option TomlTarget :=
  layout.lib.map (fun lib =>
    { name := some name, path := some lib })

/-- `inferred_bin_targets`: synthesize `[[bin]]` sections from the prober;
the conventional main-entry file is named after the package, every other
entry after its file stem. -/
def inferred_bin_targets (name : String) (layout : Layout) : List TomlTarget :=
  layout.bins.filterMap (fun bin =>
    let n :=
      if bin = FsPath.mk false ["src", "main.rs"] ∨
          bin = layout.root.join (FsPath.mk false ["src", "main.rs"]) then
        some name
      else bin.file_stem
    n.map (fun name => { name := some name, path := some bin }))

/-- `inferred_example_targets`. -/
def inferred_example_targets (layout : Layout) : List TomlTarget :=
  layout.examples.filterMap (fun ex =>
    ex.file_stem.map (fun name => { name := some name, path := some ex }))

/-- `inferred_test_targets`. -/
def inferred_test_targets (layout : Layout) : List TomlTarget :=
  layout.tests.filterMap (fun t =>
    t.file_stem.map (fun name => { name := some name, path := some t }))

/-- `inferred_bench_targets`. -/
def inferred_bench_targets (layout : Layout) : List TomlTarget :=
  layout.benches.filterMap (fun b =>
    b.file_stem.map (fun name => { name := some name, path := some b }))

/-- `unique_names_in_targets` worker: first duplicated name, if any. -/
def uniqueNamesGo (seen : List String) : List TomlTarget → Except String Unit
  | [] => .ok ()
  | t :: rest =>
    let v := t.nameStr
    if v ∈ seen then .error v else uniqueNamesGo (v :: seen) rest

/-- `unique_names_in_targets`: check that target names are unique within one
kind's list, returning the offending name otherwise. -/
def unique_names_in_targets (targets : List TomlTarget) : Except String Unit :=
  uniqueNamesGo [] targets

/-- `unique_build_targets` worker: first duplicated source path, if any. -/
def uniqueBuildGo (root : FsPath) (seen : List FsPath) :
    List Target → Except String Unit
  | [] => .ok ()
  | t :: rest =>
    let v := root.join t.src_path
    if v ∈ seen then .error v.display else uniqueBuildGo root (v :: seen) rest

/-- `unique_build_targets`: check that no two build targets resolve to the
same source path, returning the shared path rendered as a string otherwise. -/
def unique_build_targets (targets : List Target) (layout : Layout) :
    Except String Unit :=
  uniqueBuildGo layout.root [] targets

/-- `maybe_custom_build`: determine the custom-build-script path from the
`build` key, probing for a conventional `build.rs` when the key is absent. -/
def maybe_custom_build (fs : List FsPath) (build : Option StringOrBool)
    (project_dir : FsPath) : Option FsPath :=
  let build_rs := project_dir.join (FsPath.mk false ["build.rs"])
  match build with
  | some (.bool false) => none
  | some (.bool true) => some build_rs
  | some (.string s) => some (FsPath.mk false [s])
  | none => if fsExists fs build_rs then some build_rs else none

/-- `inferred_bin_path`: priority search for the source path of a binary
declared without an explicit path. -/
def inferred_bin_path (fs : List FsPath) (bin : TomlTarget)
    (package_root : FsPath) (lib : Bool) (bin_len : Nat) : FsPath :=
  if lib ∧ bin_len > 1 then
    FsPath.mk false ["src", "bin", bin.nameStr ++ ".rs"]
  else if lib ∧ bin_len = 1 then
    let path := FsPath.mk false ["src", "main.rs"]
    if fsExists fs (package_root.join path) then path
    else
      let path := FsPath.mk false ["src", "bin", bin.nameStr ++ ".rs"]
      if fsExists fs (package_root.join path) then path
      else FsPath.mk false ["src", "bin", "main.rs"]
  else if bin_len = 1 then
    let path := FsPath.mk false ["src", "main.rs"]
    if fsExists fs (package_root.join path) then path
    else
      let path := FsPath.mk false ["src", bin.nameStr ++ ".rs"]
      if fsExists fs (package_root.join path) then path
      else
        let path := FsPath.mk false ["src", "bin", bin.nameStr ++ ".rs"]
        if fsExists fs (package_root.join path) then path
        else FsPath.mk false ["src", "bin", "main.rs"]
  else
    FsPath.mk false ["src", "bin", bin.nameStr ++ ".rs"]

/-- The `configure` closure of `normalize`: per-target boolean flags from the
explicit value when present, else the kind default already on the target. -/
def configure (toml : TomlTarget) (target : Target) : Target :=
  { target with
      tested := toml.test.getD target.tested
      doc := toml.doc.getD target.doc
      doctested := toml.doctest.getD target.doctested
      benched := toml.bench.getD target.benched
      harness := toml.harness.getD target.harness
      for_host :=
        match toml.plugin, toml.procMacroFlag with
        | none, none => target.for_host
        | some true, _ => true
        | _, some true => true
        | some false, _ => false
        | _, some false => false }

/-- The `lib_target` closure of `normalize`. -/
def libTargetOf (package_root : FsPath) (l : TomlTarget) : Target :=
  let path := l.path.getD (FsPath.mk false ["src", l.nameStr ++ ".rs"])
  let crate_types : List LibKind :=
    match l.crate_type <|> l.crate_type2 with
    | some kinds => kinds.map LibKind.from_str
    | none =>
      [if l.plugin = some true then LibKind.Dylib
       else if l.procMacroFlag = some true then LibKind.ProcMacro
       else LibKind.Lib]
  configure l (Target.lib_target l.nameStr crate_types (package_root.join path))

/-- The `bin_targets` closure of `normalize`. -/
def binTargetsOf (package_root : FsPath) (bins : List TomlTarget)
    (default : TomlTarget → FsPath) : List Target :=
  bins.map (fun bin =>
    let path := bin.path.getD (default bin)
    configure bin
      (Target.bin_target bin.nameStr (package_root.join path)
        bin.required_features))

/-- The `custom_build_target` closure of `normalize`. -/
def customBuildTargetOf (package_root : FsPath) (cmd : FsPath) : Target :=
  let name := "build-script-" ++ (cmd.file_stem.getD "")
  Target.custom_build_target name (package_root.join cmd)

/-- The `example_targets` closure of `normalize`. -/
def exampleTargetsOf (package_root : FsPath) (examples : List TomlTarget)
    (default : TomlTarget → FsPath) : List Target :=
  examples.map (fun ex =>
    let path := ex.path.getD (default ex)
    let crate_types : List LibKind :=
      match ex.crate_type <|> ex.crate_type2 with
      | some kinds => kinds.map LibKind.from_str
      | none => []
    configure ex
      (Target.example_target ex.nameStr crate_types (package_root.join path)
        ex.required_features))

/-- The `test_targets` closure of `normalize`. -/
def testTargetsOf (package_root : FsPath) (tests : List TomlTarget)
    (default : TomlTarget → FsPath) : List Target :=
  tests.map (fun t =>
    let path := t.path.getD (default t)
    configure t
      (Target.test_target t.nameStr (package_root.join path)
        t.required_features))

/-- The `bench_targets` closure of `normalize`. -/
def benchTargetsOf (package_root : FsPath) (benches : List TomlTarget)
    (default : TomlTarget → FsPath) : List Target :=
  benches.map (fun b =>
    let path := b.path.getD (default b)
    configure b
      (Target.bench_target b.nameStr (package_root.join path)
        b.required_features))

/-- `normalize`: assemble the final ordered build-target list from the
explicit or inferred target declarations. -/
def normalize (fs : List FsPath) (package_root : FsPath)
    (lib : Option TomlTarget) (bins : List TomlTarget)
    (custom_build : Option FsPath)
    (examples tests benches : List TomlTarget) : List Target :=
  let ret : List Target := []
  let ret :=
    match lib with
    | some l =>
      (ret ++ [libTargetOf package_root l]) ++
        binTargetsOf package_root bins
          (fun bin => inferred_bin_path fs bin package_root true bins.length)
    | none =>
      if bins.length > 0 then
        ret ++ binTargetsOf package_root bins
          (fun bin => inferred_bin_path fs bin package_root false bins.length)
      else ret
  let ret :=
    match custom_build with
    | some cb => ret ++ [customBuildTargetOf package_root cb]
    | none => ret
  let ret :=
    ret ++ exampleTargetsOf package_root examples
      (fun ex => FsPath.mk false ["examples", ex.nameStr ++ ".rs"])
  let ret :=
    ret ++ testTargetsOf package_root tests
      (fun t =>
        if t.nameStr = "test" then FsPath.mk false ["src", "test.rs"]
        else FsPath.mk false ["tests", t.nameStr ++ ".rs"])
  let ret :=
    ret ++ benchTargetsOf package_root benches
      (fun b =>
        if b.nameStr = "bench" then FsPath.mk false ["src", "bench.rs"]
        else FsPath.mk false ["benches", b.nameStr ++ ".rs"])
  ret

/-- Split a character list at every occurrence of a separator character. -/
def splitOnCharAux (c : Char) : List Char → List (List Char)
  | [] => [[]]
  | x :: xs =>
    let r := splitOnCharAux c xs
    if x = c then [] :: r
    else
      match r with
      | [] => [[x]]
      | y :: ys => (x :: y) :: ys

/-- `core::PackageIdSpec`, reduced to the fields this file uses. -/
structure PackageIdSpec where
  name : String
  version : Option String
  url : Option String
deriving DecidableEq

/-- Modelled from the spec: `PackageIdSpec::parse` (in `core`, outside src/)
accepts `name` or `name:version` replacement specs; URL-form specs are not
modelled. -/
def PackageIdSpec.parse (s : String) : Except String PackageIdSpec :=
  match splitOnCharAux ':' s.data with
  | [n] => .ok ⟨String.mk n, none, none⟩
  | [n, v] => .ok ⟨String.mk n, some (String.mk v), none⟩
  | _ =>
    .error ("replacements must specify a valid semver version to replace, but `"
      ++ s ++ "` does not")

/-- How a `PackageIdSpec` renders in error messages. -/
def PackageIdSpec.displaySpec (spec : PackageIdSpec) : String :=
  spec.name ++ (match spec.version with
                | some v => ":" ++ v
                | none => "")

/-- `core::Summary`, reduced to the fields this file uses. -/
structure Summary where
  package_id : PackageId
  deps : List Dependency
  features : List (String × List String)
deriving DecidableEq

/-- Modelled from the spec: `Summary::new` (in `core`, outside src/) performs
feature-table validation that is delegated to the dependency-graph subsystem;
modelled as succeeding. -/
def Summary.new (pkgid : PackageId) (deps : List Dependency)
    (features : List (String × List String)) : Except String Summary :=
  .ok { package_id := pkgid, deps := deps, features := features }

/-- `core::manifest::ManifestMetadata`. -/
structure ManifestMetadata where
  description : Option String
  homepage : Option String
  documentation : Option String
  readme : Option String
  authors : List String
  license : Option String
  license_file : Option String
  repository : Option String
  keywords : List String
  categories : List String
  badges : List (String × List (String × String))
deriving DecidableEq

/-- `core::WorkspaceConfig`. -/
inductive WorkspaceConfig where
  | Root (members : Option (List String)) (exclude : List String)
  | Member (root : Option String)
deriving DecidableEq

/-- `core::Manifest`, reduced to the fields this file constructs. -/
structure Manifest where
  summary : Summary
  targets : List Target
  exclude : List String
  include' : List String
  links : Option String
  metadata : ManifestMetadata
  profiles : Profiles
  publish : Bool
  replace : List (PackageIdSpec × Dependency)
  workspace_config : WorkspaceConfig
  warnings : List String
deriving DecidableEq

/-- `Manifest::add_warning`. -/
def Manifest.add_warning (m : Manifest) (s : String) : Manifest :=
  { m with warnings := m.warnings ++ [s] }

/-- `core::VirtualManifest`. -/
structure VirtualManifest where
  replace : List (PackageIdSpec × Dependency)
  workspace_config : WorkspaceConfig
  profiles : Profiles
deriving DecidableEq

/-- `EitherManifest`. -/
inductive EitherManifest where
  | Real (m : Manifest)
  | Virtual (m : VirtualManifest)
deriving DecidableEq

/-- The loop body of `TomlManifest::replace`: validate and resolve one
`[replace]` entry, accumulating the replacement table and the context. -/
def replaceStep (rc : List (PackageIdSpec × Dependency) × Context)
    (entry : String × TomlDependency) :
    Except String (List (PackageIdSpec × Dependency) × Context) := do
    let (replace, cx) := rc
    let spec0 ← PackageIdSpec.parse entry.1
    let spec :=
      if spec0.url.isNone then
        { spec0 with
            url := some "registry+https://github.com/rust-lang/crates.io-index" }
      else spec0
    let version_specified :=
      match entry.2 with
      | .Detailed d => d.version.isSome
      | .Simple _ => true
    if version_specified then
      throw ("replacements cannot specify a version requirement, but found one for `"
        ++ spec.displaySpec ++ "`")
    else
      let (dep, cx) ← entry.2.to_dependency spec.name cx none
      match spec.version with
      | none =>
        throw ("replacements must specify a version to replace, but `"
          ++ spec.displaySpec ++ "` does not")
      | some version =>
        let dep := { dep with version := some ("= " ++ version) }
        pure (replace ++ [(spec, dep)], cx)

/-- `TomlManifest::replace` (named `replaceFn` because `replace` is the
field): validate and resolve every `[replace]` entry. -/
def TomlManifest.replaceFn (self : TomlManifest) (cx : Context) :
    Except String (List (PackageIdSpec × Dependency) × Context) :=
  (self.replace.getD []).foldlM replaceStep ([], cx)

/-- One iteration of the per-platform dependency loop of `to_real_manifest`. -/
def processPlatformDeps (cx : Context)
    (entry : String × TomlPlatform) : Except String Context := do
  let (name, platform) := entry
  let pname ← parsePlatform name
  let cx := { cx with platform := some pname }
  let cx ← process_dependencies cx platform.dependencies none
  let build_deps := platform.build_dependencies <|> platform.build_dependencies2
  let cx ← process_dependencies cx build_deps (some Kind.Build)
  let dev_deps := platform.dev_dependencies <|> platform.dev_dependencies2
  process_dependencies cx dev_deps (some Kind.Development)

/-- The dependency-collection phase of `to_real_manifest`: default, dev and
build tables, then every platform-scoped table. -/
def collectDeps (self : TomlManifest) (cx : Context) :
    Except String Context := do
  let cx ← process_dependencies cx self.dependencies none
  let dev_deps := self.dev_dependencies <|> self.dev_dependencies2
  let cx ← process_dependencies cx dev_deps (some Kind.Development)
  let build_deps := self.build_dependencies <|> self.build_dependencies2
  let cx ← process_dependencies cx build_deps (some Kind.Build)
  (self.target.getD []).foldlM processPlatformDeps cx

def conflictingSourcesError (name : String) : String :=
  "Dependency '" ++ name ++ "' has different source paths depending on the build target. Each dependency must have a single canonical source path irrespective of build target."

/-- Worker for the cross-table consistency check of `to_real_manifest`
(the `names_sources` map, kept as an association list with newest first). -/
def namesSourcesGo (seen : List (String × SourceId)) :
    List Dependency → Except String Unit
  | [] => .ok ()
  | dep :: rest =>
    match (seen.find? (fun p => p.1 == dep.name)).map Prod.snd with
    | some prev =>
      if prev ≠ dep.source_id then .error (conflictingSourcesError dep.name)
      else namesSourcesGo ((dep.name, dep.source_id) :: seen) rest
    | none => namesSourcesGo ((dep.name, dep.source_id) :: seen) rest

/-- The cross-table source-identity consistency check: every dependency with
one name must resolve to one source identity. -/
def checkNamesSources (deps : List Dependency) : Except String Unit :=
  namesSourcesGo [] deps

/-- The project-section lookup and package-name validation at the top of
`to_real_manifest`. -/
def TomlManifest.getProject (self : TomlManifest) :
    Except String TomlProject :=
  match self.project <|> self.package with
  | none => .error "no `package` or `project` section found."
  | some project =>
    if trimEmpty project.name then
      .error "package name cannot be an empty string."
    else .ok project

/-- The `[lib]` resolution of `to_real_manifest`: validate, then default the
name from the package and the path from the Layout Prober. -/
def TomlManifest.resolveLib (self : TomlManifest) (layout : Layout)
    (projectName : String) : Except String (Option TomlTarget) :=
  match self.lib with
  | some lib => do
    lib.validate_library_name
    lib.validate_crate_type
    pure (some { lib with
                   name := lib.name <|> some projectName
                   path := lib.path <|> layout.lib })
  | none => pure (inferred_lib_target projectName layout)

/-- The `[[bin]]` list: explicit declarations, else inferred from the prober. -/
def TomlManifest.binsOf (self : TomlManifest) (layout : Layout)
    (projectName : String) : List TomlTarget :=
  match self.bin with
  | some bins => bins
  | none => inferred_bin_targets projectName layout

/-- Validation of explicit `[[bin]]` declarations. -/
def TomlManifest.validateBins (self : TomlManifest) : Except String Unit :=
  match self.bin with
  | some bins => bins.forM (fun t => t.validate_binary_name)
  | none => pure ()

/-- The reserved-binary-name check. -/
def checkBinBlacklist (bins : List TomlTarget) : Except String Unit :=
  bins.forM (fun bin =>
    if ["build", "deps", "examples", "native"].contains bin.nameStr then
      throw ("the binary target name `" ++ bin.nameStr ++ "` is forbidden")
    else pure ())

/-- The `[[example]]` list: explicit declarations, else inferred. -/
def TomlManifest.examplesOf (self : TomlManifest) (layout : Layout) :
    List TomlTarget :=
  match self.example' with
  | some examples => examples
  | none => inferred_example_targets layout

/-- Validation of explicit `[[example]]` declarations. -/
def TomlManifest.validateExamples (self : TomlManifest) :
    Except String Unit :=
  match self.example' with
  | some examples => examples.forM (fun t => t.validate_example_name)
  | none => pure ()

/-- The `[[test]]` list: explicit declarations, else inferred. -/
def TomlManifest.testsOf (self : TomlManifest) (layout : Layout) :
    List TomlTarget :=
  match self.test with
  | some tests => tests
  | none => inferred_test_targets layout

/-- Validation of explicit `[[test]]` declarations. -/
def TomlManifest.validateTests (self : TomlManifest) : Except String Unit :=
  match self.test with
  | some tests => tests.forM (fun t => t.validate_test_name)
  | none => pure ()

/-- The `[[bench]]` list: explicit declarations, else inferred. -/
def TomlManifest.benchesOf (self : TomlManifest) (layout : Layout) :
    List TomlTarget :=
  match self.bench with
  | some benches => benches
  | none => inferred_bench_targets layout

/-- Validation of explicit `[[bench]]` declarations. -/
def TomlManifest.validateBenches (self : TomlManifest) : Except String Unit :=
  match self.bench with
  | some benches => benches.forM (fun t => t.validate_bench_name)
  | none => pure ()

/-- The four duplicate-name checks of `to_real_manifest`, in source order. -/
def checkUniqueTargetNames (bins examples benches tests : List TomlTarget) :
    Except String Unit := do
  match unique_names_in_targets bins with
  | .error e =>
    throw ("found duplicate binary name " ++ e ++
      ", but all binary targets must have a unique name")
  | .ok _ => pure ()
  match unique_names_in_targets examples with
  | .error e =>
    throw ("found duplicate example name " ++ e ++
      ", but all binary targets must have a unique name")
  | .ok _ => pure ()
  match unique_names_in_targets benches with
  | .error e =>
    throw ("found duplicate bench name " ++ e ++
      ", but all binary targets must have a unique name")
  | .ok _ => pure ()
  match unique_names_in_targets tests with
  | .error e =>
    throw ("found duplicate test name " ++ e ++
      ", but all binary targets must have a unique name")
  | .ok _ => pure ()

/-- The workspace-configuration resolution of `to_real_manifest`. -/
def workspaceConfigOf (self : TomlManifest) (project : TomlProject) :
    Except String WorkspaceConfig :=
  match self.workspace, project.workspace with
  | some config, none => .ok (.Root config.members (config.exclude.getD []))
  | none, root => .ok (.Member root)
  | some _, some _ =>
    .error "cannot configure both `package.workspace` and `[workspace]`, only one can be specified"

/-- `TomlManifest::to_real_manifest`: the package-section interpretation
path; `fs` is the filesystem snapshot consulted by the existence probes. -/
def TomlManifest.to_real_manifest (self : TomlManifest)
    (source_id : SourceId) (layout : Layout) (fs : List FsPath) :
    Except String (Manifest × List FsPath) := do
  let project ← self.getProject
  let pkgid ← project.to_package_id source_id
  let lib ← self.resolveLib layout project.name
  self.validateBins
  let bins := self.binsOf layout project.name
  checkBinBlacklist bins
  self.validateExamples
  let examples := self.examplesOf layout
  self.validateTests
  let tests := self.testsOf layout
  self.validateBenches
  let benches := self.benchesOf layout
  checkUniqueTargetNames bins examples benches tests
  let new_build := maybe_custom_build fs project.build layout.root
  let targets :=
    normalize fs layout.root lib bins new_build examples tests benches
  let warnings : List String := []
  let warnings :=
    match unique_build_targets targets layout with
    | .error e =>
      warnings ++ ["file found to be present in multiple build targets: " ++ e]
    | .ok _ => warnings
  let cx : Context :=
    { pkgid := some pkgid, deps := [], source_id := source_id,
      nested_paths := [], warnings := warnings, platform := none,
      layout := layout }
  let cx ← collectDeps self cx
  let (replace, cx) ← self.replaceFn cx
  checkNamesSources cx.deps
  let exclude := project.exclude.getD []
  let include' := project.include'.getD []
  let summary ← Summary.new pkgid cx.deps (self.features.getD [])
  let metadata : ManifestMetadata :=
    { description := project.description
      homepage := project.homepage
      documentation := project.documentation
      readme := project.readme
      authors := project.authors.getD []
      license := project.license
      license_file := project.license_file
      repository := project.repository
      keywords := project.keywords.getD []
      categories := project.categories.getD []
      badges := self.badges.getD [] }
  let workspace_config ← workspaceConfigOf self project
  let profiles := build_profiles self.profile
  let publish := project.publish.getD true
  let manifest : Manifest :=
    { summary := summary, targets := targets, exclude := exclude,
      include' := include', links := project.links, metadata := metadata,
      profiles := profiles, publish := publish, replace := replace,
      workspace_config := workspace_config, warnings := [] }
  let manifest :=
    if project.license_file.isSome ∧ project.license.isSome then
      manifest.add_warning "only one of `license` or `license-file` is necessary"
    else manifest
  let manifest := cx.warnings.foldl Manifest.add_warning manifest
  pure (manifest, cx.nested_paths)

/-- `TomlManifest::to_virtual_manifest`: the workspace-root-only path. -/
def TomlManifest.to_virtual_manifest (self : TomlManifest)
    (source_id : SourceId) (layout : Layout) (_fs : List FsPath) :
    Except String (VirtualManifest × List FsPath) := do
  if self.project.isSome then
    throw "virtual manifests do not define [project]"
  if self.package.isSome then
    throw "virtual manifests do not define [package]"
  if self.lib.isSome then
    throw "virtual manifests do not specifiy [lib]"
  if self.bin.isSome then
    throw "virtual manifests do not specifiy [[bin]]"
  if self.example'.isSome then
    throw "virtual manifests do not specifiy [[example]]"
  if self.test.isSome then
    throw "virtual manifests do not specifiy [[test]]"
  if self.bench.isSome then
    throw "virtual manifests do not specifiy [[bench]]"
  let cx : Context :=
    { pkgid := none, deps := [], source_id := source_id,
      nested_paths := [], warnings := [], platform := none,
      layout := layout }
  let (replace, cx) ← self.replaceFn cx
  let profiles := build_profiles self.profile
  let workspace_config ←
    match self.workspace with
    | some config =>
      pure (WorkspaceConfig.Root config.members (config.exclude.getD []))
    | none => throw "virtual manifests must be configured with [workspace]"
  pure ({ replace := replace, workspace_config := workspace_config,
          profiles := profiles }, cx.nested_paths)

/-- `to_manifest`, starting from the already-deserialized document (TOML text
parsing and unknown-key collection belong to the parsing collaborator; the
unconsumed key paths arrive as `unused`). -/
def to_manifest (manifest : TomlManifest) (source_id : SourceId)
    (layout : Layout) (fs : List FsPath) (unused : List String) :
    Except String (EitherManifest × List FsPath) :=
  match manifest.to_real_manifest source_id layout fs with
  | .ok (m, paths) =>
    let m := unused.foldl
      (fun m key => m.add_warning ("unused manifest key: " ++ key)) m
    if !(m.targets.any (fun t => !t.is_custom_build)) then
      .error "no targets specified in the manifest\n  either src/lib.rs, src/main.rs, a [lib] section, or [[bin]] section must be present"
    else .ok (.Real m, paths)
  | .error e =>
    match manifest.to_virtual_manifest source_id layout fs with
    | .ok (m, paths) => .ok (.Virtual m, paths)
    | .error _ => .error e

deriving instance DecidableEq for Except

instance : Inhabited Dependency :=
  ⟨{ name := "", version := none, source_id := .registry "", features := [],
     default_features := true, optional := false, platform := none,
     kind := .Normal }⟩

/-- The manifest of a successful interpretation result (arbitrary on
errors); used to state concrete outcomes without spelling the record out. -/
def okManifestOf (r : Except String (Manifest × List FsPath)) : Manifest :=
  match r with
  | .ok (m, _) => m
  | .error _ =>
    { summary := { package_id := { name := "", version := "",
                                   source_id := .registry "" },
                   deps := [], features := [] },
      targets := [], exclude := [], include' := [], links := none,
      metadata := { description := none, homepage := none,
                    documentation := none, readme := none, authors := [],
                    license := none, license_file := none, repository := none,
                    keywords := [], categories := [], badges := [] },
      profiles := build_profiles none, publish := true, replace := [],
      workspace_config := .Member none, warnings := [] }

/-- The nested-path list of a successful interpretation result. -/
def okPathsOf (r : Except String (Manifest × List FsPath)) : List FsPath :=
  match r with
  | .ok (_, p) => p
  | .error _ => []

/-- Package root shared by the concrete instances below. -/
def wRoot : FsPath := ⟨true, ["pkg"]⟩

/-- A path-kind source identity for the owning package. -/
def wSid : SourceId := .path wRoot

/-- An empty Layout-Prober inventory over `wRoot`. -/
def wLayout : Layout := { root := wRoot }

/-- A `[[bin]]` declaration with an explicit path. -/
def wBinApp : TomlTarget :=
  { name := some "app", path := some ⟨false, ["src", "main.rs"]⟩ }

/-- A detailed path-only dependency declaration. -/
def wDepPath (c : List String) : TomlDependency :=
  .Detailed { path := some ⟨false, c⟩ }

/-- A manifest declaring `foo` in the default table and in a platform table
with path spellings denoting the same directory. -/
def sameSourceManifest : TomlManifest :=
  { package := some { name := "pkg", version := "1.0.0" }
    bin := some [wBinApp]
    dependencies := some [("foo", wDepPath [".", "a"])]
    target := some [("cfg(windows)",
      { dependencies := some [("foo", wDepPath ["a"])] })] }

/-- Claim C4: after profile merging, each of the test, bench, test-deps and
bench-deps profiles has its panic-strategy field equal to the compiled-in
default (cleared), irrespective of anything the user set — including an
explicit `profile.test.panic = "abort"` override. Profile merging is a total
function (`build_profiles` cannot fail). -/
theorem claim_C4_panic_cleared (p : Option TomlProfiles) :
    (build_profiles p).test.panic = none ∧
    (build_profiles p).bench.panic = none ∧
    (build_profiles p).test_deps.panic = none ∧
    (build_profiles p).bench_deps.panic = none ∧
    (build_profiles p).test.panic = Profile.default_test.panic ∧
    (build_profiles p).bench.panic = Profile.default_bench.panic ∧
    (build_profiles p).test_deps.panic = Profile.default_dev.panic ∧
    (build_profiles p).bench_deps.panic = Profile.default_release.panic ∧
    (build_profiles
      (some { test := some { panic := some "abort" } })).test.panic = none :=
  ⟨rfl, rfl, rfl, rfl, rfl, rfl, rfl, rfl, rfl⟩

/-- Claim C10: the user's dev override feeds the dev, test-deps and check
profiles, the user's release override feeds the release and bench-deps
profiles, and the custom-build and doctest profiles are always exactly the
compiled-in defaults, ignoring every user override. -/
theorem claim_C10_profile_override_wiring (tp : TomlProfiles) :
    (build_profiles (some tp)).custom_build = Profile.default_custom_build ∧
    (build_profiles (some tp)).doctest = Profile.default_doctest ∧
    (build_profiles (some tp)).dev = merge Profile.default_dev tp.dev ∧
    (build_profiles (some tp)).test_deps =
      { merge Profile.default_dev tp.dev with panic := none } ∧
    (build_profiles (some tp)).check = merge Profile.default_check tp.dev ∧
    (build_profiles (some tp)).release =
      merge Profile.default_release tp.release ∧
    (build_profiles (some tp)).bench_deps =
      { merge Profile.default_release tp.release with panic := none } :=
  ⟨rfl, rfl, rfl, rfl, rfl, rfl, rfl⟩

/-- The compiled-in default profiles used by `build_profiles`. -/
def defaultProfiles : List Profile :=
  [Profile.default_release, Profile.default_dev, Profile.default_test,
   Profile.default_bench, Profile.default_doc, Profile.default_custom_build,
   Profile.default_check, Profile.default_doctest]

/-- Claim C5: each named profile is the compiled-in default with each field
replaced independently if and only if the corresponding override field is
present; in particular, over the compiled-in defaults, omitting
codegen-units in the override leaves the default codegen-unit count. -/
theorem claim_C5_per_field_merge (d : Profile) (hd : d ∈ defaultProfiles)
    (t : TomlProfile) :
    (merge d none = d) ∧
    (t.codegen_units = none →
      (merge d (some t)).codegen_units = d.codegen_units) ∧
    (∀ n, t.codegen_units = some n →
      (merge d (some t)).codegen_units = some n) ∧
    (t.opt_level = none → (merge d (some t)).opt_level = d.opt_level) ∧
    (∀ v, t.opt_level = some v → (merge d (some t)).opt_level = v) ∧
    (t.lto = none → (merge d (some t)).lto = d.lto) ∧
    (∀ b, t.lto = some b → (merge d (some t)).lto = b) ∧
    (t.panic = none → (merge d (some t)).panic = d.panic) ∧
    (∀ s, t.panic = some s → (merge d (some t)).panic = some s) ∧
    (t.debug_assertions = none →
      (merge d (some t)).debug_assertions = d.debug_assertions) ∧
    (∀ b, t.debug_assertions = some b →
      (merge d (some t)).debug_assertions = b) ∧
    (t.overflow_checks = none →
      (merge d (some t)).overflow_checks = d.overflow_checks) ∧
    (∀ b, t.overflow_checks = some b →
      (merge d (some t)).overflow_checks = b) ∧
    (t.rpath = none → (merge d (some t)).rpath = d.rpath) ∧
    (∀ b, t.rpath = some b → (merge d (some t)).rpath = b) ∧
    (t.debug = none → (merge d (some t)).debuginfo = d.debuginfo) := by
  fin_cases hd <;>
    refine ⟨rfl, ?_, ?_, ?_, ?_, ?_, ?_, ?_, ?_, ?_, ?_, ?_, ?_, ?_, ?_, ?_⟩ <;>
    intros <;> simp_all [merge, Profile.default_release, Profile.default_dev,
      Profile.default_test, Profile.default_bench, Profile.default_doc,
      Profile.default_custom_build, Profile.default_check,
      Profile.default_doctest, Profile.base]

/-- Witness for claim C5 at a concrete default profile and override. -/
theorem claim_C5_witness :
    Profile.default_dev ∈ defaultProfiles ∧
    (merge Profile.default_dev (some { lto := some true })).codegen_units =
      Profile.default_dev.codegen_units ∧
    (merge Profile.default_dev (some { lto := some true })).lto = true :=
  ⟨by decide,
   (claim_C5_per_field_merge Profile.default_dev (by decide)
     { lto := some true }).2.1 rfl,
   (claim_C5_per_field_merge Profile.default_dev (by decide)
     { lto := some true }).2.2.2.2.2.2.1 true rfl⟩

/-- Claim C9, counterexample: with a library present, exactly one binary and
neither conventional file on disk, the inferred path is the
binaries-subdirectory main file `src/bin/main.rs`, not the conventional
main-entry path `src/main.rs` the claim names as the synthesized last
resort. -/
theorem claim_C9_counterexample :
    inferred_bin_path [] { name := some "foo" } wRoot true 1 =
      FsPath.mk false ["src", "bin", "main.rs"] ∧
    FsPath.mk false ["src", "bin", "main.rs"] ≠
      FsPath.mk false ["src", "main.rs"] := by
  exact ⟨by decide, by decide⟩

/-- Claim C9 as amended: when a library exists and there is exactly one
binary with no explicit path, inference tries `src/main.rs` first, then
`src/bin/<name>.rs`, and when neither exists synthesizes the
binaries-subdirectory main path `src/bin/main.rs` as a last resort. -/
theorem claim_C9_bin_path_inference (fs : List FsPath) (bin : TomlTarget)
    (root : FsPath) :
    (fsExists fs (root.join (FsPath.mk false ["src", "main.rs"])) = true →
      inferred_bin_path fs bin root true 1 =
        FsPath.mk false ["src", "main.rs"]) ∧
    (fsExists fs (root.join (FsPath.mk false ["src", "main.rs"])) = false →
      fsExists fs
        (root.join (FsPath.mk false ["src", "bin", bin.nameStr ++ ".rs"])) =
        true →
      inferred_bin_path fs bin root true 1 =
        FsPath.mk false ["src", "bin", bin.nameStr ++ ".rs"]) ∧
    (fsExists fs (root.join (FsPath.mk false ["src", "main.rs"])) = false →
      fsExists fs
        (root.join (FsPath.mk false ["src", "bin", bin.nameStr ++ ".rs"])) =
        false →
      inferred_bin_path fs bin root true 1 =
        FsPath.mk false ["src", "bin", "main.rs"]) := by
  refine ⟨fun h1 => ?_, fun h1 h2 => ?_, fun h1 h2 => ?_⟩ <;>
    simp [inferred_bin_path, h1, *]

/-- Witness for claim C9 at concrete filesystem snapshots. -/
theorem claim_C9_witness :
    inferred_bin_path [FsPath.mk true ["pkg", "src", "main.rs"]]
      { name := some "foo" } wRoot true 1 =
      FsPath.mk false ["src", "main.rs"] ∧
    inferred_bin_path [FsPath.mk true ["pkg", "src", "bin", "foo.rs"]]
      { name := some "foo" } wRoot true 1 =
      FsPath.mk false ["src", "bin", "foo.rs"] :=
  ⟨(claim_C9_bin_path_inference [FsPath.mk true ["pkg", "src", "main.rs"]]
      { name := some "foo" } wRoot).1 (by decide),
   (claim_C9_bin_path_inference [FsPath.mk true ["pkg", "src", "bin", "foo.rs"]]
      { name := some "foo" } wRoot).2.1 (by decide) (by decide)⟩

/-- Claim C3: whenever the package-section path fails, the virtual-manifest
path is attempted; if the virtual attempt succeeds its result is returned,
and if it also fails the original package-section error is propagated. -/
theorem claim_C3_virtual_fallback (m : TomlManifest) (sid : SourceId)
    (layout : Layout) (fs : List FsPath) (unused : List String) (e : String)
    (hreal : m.to_real_manifest sid layout fs = .error e) :
    (∀ v paths, m.to_virtual_manifest sid layout fs = .ok (v, paths) →
      to_manifest m sid layout fs unused = .ok (.Virtual v, paths)) ∧
    (∀ e2, m.to_virtual_manifest sid layout fs = .error e2 →
      to_manifest m sid layout fs unused = .error e) := by
  constructor
  · intro v paths hv
    simp [to_manifest, hreal, hv]
  · intro e2 hv
    simp [to_manifest, hreal, hv]

/-- A workspace-root-only document. -/
def wWorkspaceManifest : TomlManifest :=
  { workspace := some { members := some ["a"] } }

/-- The virtual manifest `wWorkspaceManifest` interprets to. -/
def wVirtual : VirtualManifest :=
  { replace := [], workspace_config := .Root (some ["a"]) [],
    profiles := build_profiles none }

/-- Witness for claim C3: an empty document fails both paths and reports the
package-section error; a workspace-only document falls back to the virtual
manifest. -/
theorem claim_C3_witness :
    to_manifest {} wSid wLayout [] [] =
      .error "no `package` or `project` section found." ∧
    to_manifest wWorkspaceManifest wSid wLayout [] [] =
      .ok (.Virtual wVirtual, []) :=
  ⟨(claim_C3_virtual_fallback {} wSid wLayout [] []
      "no `package` or `project` section found." (by decide)).2
      "virtual manifests must be configured with [workspace]" (by decide),
   (claim_C3_virtual_fallback wWorkspaceManifest wSid wLayout [] []
      "no `package` or `project` section found." (by decide)).1
      wVirtual [] (by decide)⟩

/-- The dependency record of a successful `to_dependency` call (arbitrary on
errors). -/
def okDepOf (r : Except String (Dependency × Context)) : Dependency :=
  match r with
  | .ok (d, _) => d
  | .error _ => default

/-- The context of a successful `to_dependency` call (arbitrary on errors). -/
def okCxOf (r : Except String (Dependency × Context)) : Context :=
  match r with
  | .ok (_, c) => c
  | .error _ =>
    { pkgid := none, deps := [], source_id := .registry "",
      nested_paths := [], warnings := [], platform := none,
      layout := { root := ⟨false, []⟩ } }

/-- Resolving a path-only dependency declaration inside a path-kind owning
package canonicalizes the path against the package root. -/
theorem to_dependency_path_source (d : DetailedTomlDependency) (n : String)
    (cx : Context) (kind : Option Kind) (p : FsPath)
    (hg : d.git = none) (hp : d.path = some p)
    (hsp : cx.source_id.is_path = true) :
    ∃ dep cx',
      (TomlDependency.Detailed d).to_dependency n cx kind = .ok (dep, cx') ∧
      dep.source_id = .path (normalize_path (cx.layout.root.join p)) := by
  obtain ⟨ver, pth, git, br, tg, rv, fe, op, df, df2⟩ := d
  simp only at hg hp
  subst hg hp
  cases ver <;> cases br <;> cases tg <;> cases rv <;> cases kind <;>
    simp [TomlDependency.to_dependency, hsp, SourceId.for_path,
      DependencyInner.parse, Bind.bind, Except.bind, Context.warn, pure,
      Except.pure]

/-- Claim C6: a declaration with a git key resolves to the Git source
identity whose reference follows the branch > tag > rev precedence (only the
first present key is honored), defaulting to `Branch "master"` when none is
present; a simultaneous path key and multiple reference keys each only add a
non-fatal warning. -/
theorem claim_C6_git_resolution (d : DetailedTomlDependency) (name : String)
    (cx : Context) (kind : Option Kind) (u : String) (hg : d.git = some u) :
    ∃ dep cx',
      (TomlDependency.Detailed d).to_dependency name cx kind =
        .ok (dep, cx') ∧
      (∀ b, d.branch = some b →
        dep.source_id = .git u (.Branch b)) ∧
      (d.branch = none → ∀ t, d.tag = some t →
        dep.source_id = .git u (.Tag t)) ∧
      (d.branch = none → d.tag = none → ∀ r, d.rev = some r →
        dep.source_id = .git u (.Rev r)) ∧
      (d.branch = none → d.tag = none → d.rev = none →
        dep.source_id = .git u (.Branch "master")) ∧
      (d.path.isSome = true → gitPathAmbiguousWarning name ∈ cx'.warnings) ∧
      (1 < ([d.branch, d.tag, d.rev].filter (fun x => x.isSome)).length →
        gitRefAmbiguousWarning name ∈ cx'.warnings) := by
  obtain ⟨ver, pth, git, br, tg, rv, fe, op, df, df2⟩ := d
  simp only at hg
  subst hg
  cases pth <;> cases br <;> cases tg <;> cases rv <;> cases kind <;>
    simp [TomlDependency.to_dependency, SourceId.for_git, to_url,
      DependencyInner.parse, Bind.bind, Except.bind, Context.warn, pure,
      Except.pure] <;>
    refine ⟨_, _, ⟨rfl, rfl⟩, ?_⟩ <;> simp

/-- A git dependency declaration carrying a path and two reference keys. -/
def wGitDep : DetailedTomlDependency :=
  { git := some "https://example.com/x.git", branch := some "b",
    tag := some "t", path := some ⟨false, ["x"]⟩ }

/-- A resolution context whose owning package is path-kind. -/
def wCx : Context :=
  { pkgid := none, deps := [], source_id := .path ⟨true, ["home", "pkg"]⟩,
    nested_paths := [], warnings := [], platform := none,
    layout := { root := ⟨true, ["home", "pkg"]⟩ } }

/-- Witness for claim C6 at a concrete ambiguous git declaration. -/
theorem claim_C6_witness :
    (okDepOf ((TomlDependency.Detailed wGitDep).to_dependency "foo" wCx
        none)).source_id =
      .git "https://example.com/x.git" (.Branch "b") ∧
    gitPathAmbiguousWarning "foo" ∈
      (okCxOf ((TomlDependency.Detailed wGitDep).to_dependency "foo" wCx
        none)).warnings ∧
    gitRefAmbiguousWarning "foo" ∈
      (okCxOf ((TomlDependency.Detailed wGitDep).to_dependency "foo" wCx
        none)).warnings := by
  obtain ⟨dep, cx', h, hb, _, _, _, hpw, hrw⟩ :=
    claim_C6_git_resolution wGitDep "foo" wCx none
      "https://example.com/x.git" rfl
  rw [h]
  exact ⟨hb "b" rfl, hpw (by decide), hrw (by decide)⟩

/-- Claim C7: two path-dependency declarations whose paths denote the same
physical directory after joining to the package root and normalizing resolve
to equal source identities (in a path-kind owning package). -/
theorem claim_C7_path_canonicalization (d1 d2 : DetailedTomlDependency)
    (n1 n2 : String) (cx : Context) (kind : Option Kind) (p1 p2 : FsPath)
    (hsp : cx.source_id.is_path = true)
    (h1g : d1.git = none) (h1p : d1.path = some p1)
    (h2g : d2.git = none) (h2p : d2.path = some p2)
    (heq : normalize_path (cx.layout.root.join p1) =
           normalize_path (cx.layout.root.join p2)) :
    ∃ dep1 cx1 dep2 cx2,
      (TomlDependency.Detailed d1).to_dependency n1 cx kind =
        .ok (dep1, cx1) ∧
      (TomlDependency.Detailed d2).to_dependency n2 cx kind =
        .ok (dep2, cx2) ∧
      dep1.source_id = .path (normalize_path (cx.layout.root.join p1)) ∧
      dep1.source_id = dep2.source_id := by
  obtain ⟨dep1, cx1, h1, hs1⟩ :=
    to_dependency_path_source d1 n1 cx kind p1 h1g h1p hsp
  obtain ⟨dep2, cx2, h2, hs2⟩ :=
    to_dependency_path_source d2 n2 cx kind p2 h2g h2p hsp
  exact ⟨dep1, cx1, dep2, cx2, h1, h2, hs1, by rw [hs1, hs2, heq]⟩

/-- Witness for claim C7: a relative spelling with `..` and an equivalent
absolute spelling resolve to one source identity. -/
theorem claim_C7_witness :
    (okDepOf ((TomlDependency.Detailed
        { path := some ⟨false, ["..", "lib"]⟩ }).to_dependency "a" wCx
        none)).source_id =
      (okDepOf ((TomlDependency.Detailed
        { path := some ⟨true, ["home", "lib"]⟩ }).to_dependency "b" wCx
        none)).source_id ∧
    (okDepOf ((TomlDependency.Detailed
        { path := some ⟨false, ["..", "lib"]⟩ }).to_dependency "a" wCx
        none)).source_id = .path ⟨true, ["home", "lib"]⟩ := by
  obtain ⟨dep1, cx1, dep2, cx2, h1, h2, hs1, hff⟩ :=
    claim_C7_path_canonicalization
      { path := some ⟨false, ["..", "lib"]⟩ }
      { path := some ⟨true, ["home", "lib"]⟩ }
      "a" "b" wCx none ⟨false, ["..", "lib"]⟩ ⟨true, ["home", "lib"]⟩
      (by decide) rfl rfl rfl rfl (by decide)
  rw [h1, h2]
  exact ⟨hff, hs1.trans (by decide)⟩

/-- Inversion of a successful `Except` bind. -/
theorem okBind {α β : Type} {x : Except String α} {f : α → Except String β}
    {r : β} (h : x.bind f = .ok r) : ∃ a, x = .ok a ∧ f a = .ok r := by
  cases x with
  | error e => simp [Except.bind] at h
  | ok a => exact ⟨a, rfl, by simpa [Except.bind] using h⟩

/-- A consistent `names_sources` association list: any two entries with one
name carry one source identity. -/
def seenConsistent (seen : List (String × SourceId)) : Prop :=
  ∀ p ∈ seen, ∀ q ∈ seen, p.1 = q.1 → p.2 = q.2

/-- Invariant of the `names_sources` loop: success means every dependency
agrees with the seen entries and any two same-named dependencies agree. -/
theorem namesSourcesGo_ok (deps : List Dependency) :
    ∀ seen, seenConsistent seen → namesSourcesGo seen deps = .ok () →
      (∀ d ∈ deps, ∀ p ∈ seen, p.1 = d.name → p.2 = d.source_id) ∧
      (∀ d1 ∈ deps, ∀ d2 ∈ deps,
        d1.name = d2.name → d1.source_id = d2.source_id) := by
  induction deps with
  | nil => intro seen _ _; exact ⟨by simp, by simp⟩
  | cons dep rest ih =>
    intro seen hcons h
    rw [namesSourcesGo] at h
    have hstep : ∃ _ : namesSourcesGo ((dep.name, dep.source_id) :: seen)
        rest = .ok (),
        (∀ p ∈ seen, p.1 = dep.name → p.2 = dep.source_id) := by
      cases hf : (seen.find? (fun p => p.1 == dep.name)).map Prod.snd with
      | none =>
        rw [hf] at h
        refine ⟨h, ?_⟩
        intro p hp hpn
        exfalso
        simp only [Option.map_eq_none'] at hf
        have := List.find?_eq_none.mp hf p hp
        simp [hpn] at this
      | some prev =>
        rw [hf] at h
        by_cases hq : prev ≠ dep.source_id
        · simp [hq] at h
        · push_neg at hq
          subst hq
          simp at h
          refine ⟨h, ?_⟩
          intro p hp hpn
          obtain ⟨q, hfq, hqp⟩ := Option.map_eq_some'.mp hf
          have hqmem := List.mem_of_find?_eq_some hfq
          have hqname : q.1 = dep.name := by
            have := List.find?_some hfq
            simpa using this
          have := hcons p hp q hqmem (hpn.trans hqname.symm)
          rw [this, hqp]
    obtain ⟨hrec, hseen⟩ := hstep
    have hcons' : seenConsistent ((dep.name, dep.source_id) :: seen) := by
      intro p hp q hq hpq
      rcases List.mem_cons.mp hp with hp1 | hp1 <;>
        rcases List.mem_cons.mp hq with hq1 | hq1
      · rw [hp1, hq1]
      · subst hp1
        exact (hseen q hq1 (by simpa using hpq.symm)).symm
      · subst hq1
        exact hseen p hp1 (by simpa using hpq)
      · exact hcons p hp1 q hq1 hpq
    obtain ⟨ihcross, ihpair⟩ :=
      ih ((dep.name, dep.source_id) :: seen) hcons' hrec
    constructor
    · intro d hd p hp hpn
      rcases List.mem_cons.mp hd with hd1 | hd1
      · subst hd1; exact hseen p hp hpn
      · exact ihcross d hd1 p (List.mem_cons_of_mem _ hp) hpn
    · intro d1 hd1 d2 hd2 hname
      rcases List.mem_cons.mp hd1 with h1 | h1 <;>
        rcases List.mem_cons.mp hd2 with h2 | h2
      · rw [h1, h2]
      · subst h1
        exact ihcross d2 h2 (d1.name, d1.source_id) (List.mem_cons_self _ _)
          hname
      · subst h2
        exact (ihcross d1 h1 (d2.name, d2.source_id) (List.mem_cons_self _ _)
          hname.symm).symm
      · exact ihpair d1 h1 d2 h2 hname

/-- A successful cross-table consistency check guarantees that same-named
dependencies carry one source identity. -/
theorem checkNamesSources_ok {deps : List Dependency}
    (h : checkNamesSources deps = .ok ()) :
    ∀ d1 ∈ deps, ∀ d2 ∈ deps,
      d1.name = d2.name → d1.source_id = d2.source_id :=
  (namesSourcesGo_ok deps [] (by intro p hp; simp at hp) h).2

/-- `to_dependency` only appends to the warning sink. -/
theorem to_dependency_warnings_mono {t : TomlDependency} {n : String}
    {cx : Context} {kind : Option Kind} {dep : Dependency} {cx' : Context}
    (h : t.to_dependency n cx kind = .ok (dep, cx')) :
    cx.warnings <+: cx'.warnings := by
  have hds : ∀ (d : DetailedTomlDependency),
      (TomlDependency.Detailed d).to_dependency n cx kind = .ok (dep, cx') →
      cx.warnings <+: cx'.warnings := by
    intro d hd
    obtain ⟨ver, pth, git, br, tg, rv, fe, op, df, df2⟩ := d
    cases ver <;> cases pth <;> cases git <;> cases br <;> cases tg <;>
      cases rv <;>
      simp [TomlDependency.to_dependency, DependencyInner.parse,
        SourceId.for_path, SourceId.crates_io, to_url, Bind.bind, Except.bind,
        pure, Except.pure, Context.warn] at hd <;>
      (try split at hd) <;>
      (try obtain ⟨hdep, hcx⟩ := hd) <;>
      (try subst hcx) <;>
      simp [List.append_assoc, List.prefix_append]
  cases t with
  | Simple v => exact hds { version := some v } (by
      have : TomlDependency.to_dependency (TomlDependency.Simple v) n cx kind
          = TomlDependency.to_dependency
            (TomlDependency.Detailed { version := some v }) n cx kind := by
        simp [TomlDependency.to_dependency]
      rw [← this]; exact h)
  | Detailed d => exact hds d h

/-- `process_dependencies` only appends to the warning sink. -/
theorem process_dependencies_warnings_mono {cx : Context}
    {nd : Option (List (String × TomlDependency))} {kind : Option Kind}
    {cx' : Context} (h : process_dependencies cx nd kind = .ok cx') :
    cx.warnings <+: cx'.warnings := by
  cases nd with
  | none =>
    simp [process_dependencies] at h
    subst h
    exact List.prefix_refl _
  | some l =>
    simp only [process_dependencies] at h
    induction l generalizing cx with
    | nil =>
      simp [List.foldlM, pure, Except.pure] at h
      subst h
      exact List.prefix_refl _
    | cons x rest ih =>
      rw [List.foldlM_cons] at h
      obtain ⟨cx2, h2, h3⟩ := okBind (by
        simpa [Bind.bind] using h)
      obtain ⟨⟨dep, cx3⟩, h4, h5⟩ := okBind (by
        simpa [Bind.bind] using h2)
      simp only [pure, Except.pure, Except.ok.injEq] at h5
      have hpre1 : cx.warnings <+: cx3.warnings :=
        to_dependency_warnings_mono h4
      have hcx2w : cx2.warnings = cx3.warnings := by
        rw [← h5]
      exact (hcx2w ▸ hpre1).trans (ih h3)

/-- The per-platform dependency loop only appends to the warning sink. -/
theorem processPlatformDeps_warnings_mono {cx : Context}
    {entry : String × TomlPlatform} {cx' : Context}
    (h : processPlatformDeps cx entry = .ok cx') :
    cx.warnings <+: cx'.warnings := by
  obtain ⟨name, platform⟩ := entry
  simp only [processPlatformDeps, parsePlatform, Bind.bind, Except.bind] at h
  obtain ⟨cx2, h2, h3⟩ := okBind h
  obtain ⟨cx3, h4, h5⟩ := okBind h3
  have p1 : cx.warnings <+: cx2.warnings := by
    have := process_dependencies_warnings_mono h2
    simpa using this
  exact (p1.trans (process_dependencies_warnings_mono h4)).trans
    (process_dependencies_warnings_mono h5)

/-- The dependency-collection phase only appends to the warning sink. -/
theorem collectDeps_warnings_mono {self : TomlManifest} {cx : Context}
    {cx' : Context} (h : collectDeps self cx = .ok cx') :
    cx.warnings <+: cx'.warnings := by
  simp only [collectDeps, Bind.bind, Except.bind] at h
  obtain ⟨cx1, h1, h⟩ := okBind h
  obtain ⟨cx2, h2, h⟩ := okBind h
  obtain ⟨cx3, h3, h⟩ := okBind h
  have p1 := process_dependencies_warnings_mono h1
  have p2 := process_dependencies_warnings_mono h2
  have p3 := process_dependencies_warnings_mono h3
  have pfold : ∀ (l : List (String × TomlPlatform)) (c c' : Context),
      l.foldlM processPlatformDeps c = .ok c' →
      c.warnings <+: c'.warnings := by
    intro l
    induction l with
    | nil =>
      intro c c' hf
      simp [List.foldlM, pure, Except.pure] at hf
      subst hf
      exact List.prefix_refl _
    | cons x rest ih =>
      intro c c' hf
      rw [List.foldlM_cons] at hf
      obtain ⟨c2, hc2, hrest⟩ := okBind (by simpa [Bind.bind] using hf)
      exact (processPlatformDeps_warnings_mono hc2).trans (ih c2 c' hrest)
  exact ((p1.trans p2).trans p3).trans (pfold _ _ _ h)

/-- One `[replace]` entry only appends to the warning sink. -/
theorem replaceStep_warnings_mono {acc : List (PackageIdSpec × Dependency)}
    {c : Context} {entry : String × TomlDependency}
    {acc2 : List (PackageIdSpec × Dependency)} {c2 : Context}
    (h : replaceStep (acc, c) entry = .ok (acc2, c2)) :
    c.warnings <+: c2.warnings := by
  simp only [replaceStep, Bind.bind, Except.bind] at h
  obtain ⟨spec0, hs0, h⟩ := okBind h
  split at h
  · simp [throw, throwThe, MonadExceptOf.throw] at h
  · obtain ⟨⟨dep, c3⟩, hdep, h⟩ := okBind (by simpa [Bind.bind] using h)
    have hpre := to_dependency_warnings_mono hdep
    split at h
    · simp [throw, throwThe, MonadExceptOf.throw] at h
    · simp only [pure, Except.pure, Except.ok.injEq, Prod.mk.injEq] at h
      rw [← h.2]
      exact hpre

/-- `[replace]` processing only appends to the warning sink. -/
theorem replaceFn_warnings_mono {self : TomlManifest} {cx : Context}
    {rep : List (PackageIdSpec × Dependency)} {cx' : Context}
    (h : self.replaceFn cx = .ok (rep, cx')) :
    cx.warnings <+: cx'.warnings := by
  simp only [TomlManifest.replaceFn] at h
  have main : ∀ (l : List (String × TomlDependency))
      (acc : List (PackageIdSpec × Dependency)) (c : Context),
      l.foldlM replaceStep (acc, c) = .ok (rep, cx') →
      c.warnings <+: cx'.warnings := by
    intro l
    induction l with
    | nil =>
      intro acc c hf
      simp [List.foldlM, pure, Except.pure] at hf
      rw [← hf.2]
    | cons x rest ih =>
      intro acc c hf
      rw [List.foldlM_cons] at hf
      obtain ⟨⟨acc2, c2⟩, hc2, hrest⟩ := okBind (by simpa [Bind.bind] using hf)
      exact (replaceStep_warnings_mono hc2).trans (ih acc2 c2 hrest)
  exact main _ [] cx h

/-- `add_warning` leaves the summary untouched. -/
theorem add_warning_summary (m : Manifest) (s : String) :
    (m.add_warning s).summary = m.summary := rfl

/-- `add_warning` leaves the target list untouched. -/
theorem add_warning_targets (m : Manifest) (s : String) :
    (m.add_warning s).targets = m.targets := rfl

/-- Folding `add_warning` appends the warnings and changes nothing else. -/
theorem foldl_add_warning (l : List String) (m : Manifest) :
    (l.foldl Manifest.add_warning m).summary = m.summary ∧
    (l.foldl Manifest.add_warning m).targets = m.targets ∧
    (l.foldl Manifest.add_warning m).warnings = m.warnings ++ l := by
  induction l generalizing m with
  | nil => simp
  | cons x rest ih =>
    obtain ⟨i1, i2, i3⟩ := ih (m.add_warning x)
    refine ⟨i1.trans rfl, i2.trans rfl, ?_⟩
    rw [List.foldl_cons, i3]
    simp [Manifest.add_warning]

/-- A successful run of the four duplicate-name checks means each list
passed its check. -/
theorem checkUniqueTargetNames_ok
    {b e be t : List TomlTarget}
    (h : checkUniqueTargetNames b e be t = .ok ()) :
    unique_names_in_targets b = .ok () ∧
    unique_names_in_targets e = .ok () ∧
    unique_names_in_targets be = .ok () ∧
    unique_names_in_targets t = .ok () := by
  simp only [checkUniqueTargetNames, Bind.bind, Except.bind] at h
  cases hb : unique_names_in_targets b with
  | error eb =>
    rw [hb] at h
    simp [throw, throwThe, MonadExceptOf.throw] at h
  | ok ub =>
    cases ub
    rw [hb] at h
    simp only [pure, Except.pure] at h
    cases he : unique_names_in_targets e with
    | error ee =>
      rw [he] at h
      simp [throw, throwThe, MonadExceptOf.throw] at h
    | ok ue =>
      cases ue
      rw [he] at h
      simp only [pure, Except.pure] at h
      cases hbe : unique_names_in_targets be with
      | error ebe =>
        rw [hbe] at h
        simp [throw, throwThe, MonadExceptOf.throw] at h
      | ok ube =>
        cases ube
        rw [hbe] at h
        simp only [pure, Except.pure] at h
        cases ht : unique_names_in_targets t with
        | error et =>
          rw [ht] at h
          simp [throw, throwThe, MonadExceptOf.throw] at h
        | ok ut =>
          cases ut
          exact ⟨rfl, rfl, rfl, rfl⟩

/-- Inversion of a successful package-section interpretation: the stages it
ran through and how the result relates to them. -/
theorem to_real_manifest_ok_inv {self : TomlManifest} {sid : SourceId}
    {layout : Layout} {fs : List FsPath} {man : Manifest}
    {paths : List FsPath}
    (h : self.to_real_manifest sid layout fs = .ok (man, paths)) :
    ∃ (project : TomlProject) (lib : Option TomlTarget) (cx : Context),
      self.getProject = .ok project ∧
      self.resolveLib layout project.name = .ok lib ∧
      unique_names_in_targets (self.binsOf layout project.name) = .ok () ∧
      unique_names_in_targets (self.examplesOf layout) = .ok () ∧
      unique_names_in_targets (self.benchesOf layout) = .ok () ∧
      unique_names_in_targets (self.testsOf layout) = .ok () ∧
      man.targets = normalize fs layout.root lib
        (self.binsOf layout project.name)
        (maybe_custom_build fs project.build layout.root)
        (self.examplesOf layout) (self.testsOf layout)
        (self.benchesOf layout) ∧
      checkNamesSources cx.deps = .ok () ∧
      man.summary.deps = cx.deps ∧
      (∀ w, unique_build_targets man.targets layout = .error w →
        ("file found to be present in multiple build targets: " ++ w) ∈
          man.warnings) := by
  simp only [TomlManifest.to_real_manifest, Bind.bind] at h
  obtain ⟨project, hproj, h⟩ := okBind h
  obtain ⟨pkgid, hpkg, h⟩ := okBind h
  obtain ⟨lib, hlib, h⟩ := okBind h
  obtain ⟨u1, hvb, h⟩ := okBind h
  obtain ⟨u2, hbl, h⟩ := okBind h
  obtain ⟨u3, hve, h⟩ := okBind h
  obtain ⟨u4, hvt, h⟩ := okBind h
  obtain ⟨u5, hvbe, h⟩ := okBind h
  obtain ⟨u6, huniq, h⟩ := okBind h
  cases u6
  obtain ⟨cx1, hcollect, h⟩ := okBind h
  obtain ⟨rc, hreplace, h⟩ := okBind h
  obtain ⟨rep, cx2⟩ := rc
  obtain ⟨u7, hnames, h⟩ := okBind h
  cases u7
  obtain ⟨summary, hsum, h⟩ := okBind h
  obtain ⟨wsc, hwsc, h⟩ := okBind h
  simp only [pure, Except.pure, Except.ok.injEq, Prod.mk.injEq] at h
  obtain ⟨hman, hpaths⟩ := h
  obtain ⟨hu1, hu2, hu3, hu4⟩ := checkUniqueTargetNames_ok huniq
  have htg : man.targets = normalize fs layout.root lib
      (self.binsOf layout project.name)
      (maybe_custom_build fs project.build layout.root)
      (self.examplesOf layout) (self.testsOf layout)
      (self.benchesOf layout) := by
    rw [← hman, (foldl_add_warning _ _).2.1]
    split <;> rfl
  have hsummary : summary = ⟨pkgid, cx2.deps, self.features.getD []⟩ := by
    simpa [Summary.new] using hsum.symm
  have hsm : man.summary.deps = cx2.deps := by
    rw [← hman, (foldl_add_warning _ _).1]
    split <;> simp [Manifest.add_warning, hsummary]
  refine ⟨project, lib, cx2, hproj, hlib, hu1, hu2, hu3, hu4, htg, hnames,
    hsm, ?_⟩
  intro w hww
  rw [htg] at hww
  have p1 := collectDeps_warnings_mono hcollect
  have p2 := replaceFn_warnings_mono hreplace
  rw [hww] at p1
  simp only [List.nil_append] at p1
  have hmem : ("file found to be present in multiple build targets: " ++ w) ∈
      cx2.warnings :=
    (p1.trans p2).subset (by simp)
  rw [← hman, (foldl_add_warning _ _).2.2]
  exact List.mem_append_right _ hmem

/-- Invariant of the duplicate-name loop: success means no name is in the
seen set and the names are pairwise distinct. -/
theorem uniqueNamesGo_ok {ts : List TomlTarget} :
    ∀ seen, uniqueNamesGo seen ts = .ok () →
      (∀ t ∈ ts, t.nameStr ∉ seen) ∧
      ts.Pairwise (fun a b => a.nameStr ≠ b.nameStr) := by
  induction ts with
  | nil => intro seen _; exact ⟨by simp, List.Pairwise.nil⟩
  | cons t rest ih =>
    intro seen h
    rw [uniqueNamesGo] at h
    by_cases hmem : t.nameStr ∈ seen
    · simp [hmem] at h
    · rw [if_neg hmem] at h
      obtain ⟨hnotin, hpair⟩ := ih (t.nameStr :: seen) h
      constructor
      · intro x hx
        rcases List.mem_cons.mp hx with hx1 | hx1
        · rw [hx1]; exact hmem
        · intro hc
          exact hnotin x hx1 (List.mem_cons_of_mem _ hc)
      · refine List.Pairwise.cons ?_ hpair
        intro x hx
        have := hnotin x hx
        simp only [List.mem_cons, not_or] at this
        exact fun hc => this.1 hc.symm

/-- A successful `unique_names_in_targets` means pairwise-distinct names. -/
theorem unique_names_pairwise {ts : List TomlTarget}
    (h : unique_names_in_targets ts = .ok ()) :
    ts.Pairwise (fun a b => a.nameStr ≠ b.nameStr) :=
  (uniqueNamesGo_ok [] h).2

/-- A manifest declaring `foo` in two tables with paths denoting different
directories. -/
def wConflictManifest : TomlManifest :=
  { package := some { name := "pkg", version := "1.0.0" }
    bin := some [wBinApp]
    dependencies := some [("foo", wDepPath [".", "a"])]
    target := some [("cfg(windows)",
      { dependencies := some [("foo", wDepPath ["b"])] })] }

/-- A manifest with two binary targets sharing the name `app`. -/
def wDupNameManifest : TomlManifest :=
  { package := some { name := "pkg", version := "1.0.0" }
    bin := some [wBinApp,
      { name := some "app", path := some ⟨false, ["src", "other.rs"]⟩ }] }

/-- A manifest whose binary and test targets share one source path. -/
def wDupPathManifest : TomlManifest :=
  { package := some { name := "pkg", version := "1.0.0" }
    bin := some [wBinApp]
    test := some [{ name := some "t",
                    path := some ⟨false, ["src", "main.rs"]⟩ }] }

/-- Claim C1: within one package interpretation, every dependency with one
name resolves to one source identity, whatever table it came from —
successful interpretation guarantees it, and a package whose declarations
resolve to different source identities aborts with the hard failure naming
that dependency. -/
theorem claim_C1_cross_table_source_consistency :
    (∀ (self : TomlManifest) (sid : SourceId) (layout : Layout)
        (fs : List FsPath) (man : Manifest) (paths : List FsPath),
      self.to_real_manifest sid layout fs = .ok (man, paths) →
      ∀ d1 ∈ man.summary.deps, ∀ d2 ∈ man.summary.deps,
        d1.name = d2.name → d1.source_id = d2.source_id) ∧
    wConflictManifest.to_real_manifest wSid wLayout [] =
      .error (conflictingSourcesError "foo") := by
  constructor
  · intro self sid layout fs man paths h d1 hd1 d2 hd2 hname
    obtain ⟨project, lib, cx, _, _, _, _, _, _, _, hnames, hdeps, _⟩ :=
      to_real_manifest_ok_inv h
    rw [hdeps] at hd1 hd2
    exact checkNamesSources_ok hnames d1 hd1 d2 hd2 hname
  · decide

/-- Witness for claim C1 at a concrete consistent manifest. -/
theorem claim_C1_witness :
    ((okManifestOf (sameSourceManifest.to_real_manifest wSid
        wLayout [])).summary.deps.headD default).source_id =
      ((okManifestOf (sameSourceManifest.to_real_manifest wSid
        wLayout [])).summary.deps.getD 1 default).source_id := by
  have hok : sameSourceManifest.to_real_manifest wSid wLayout [] =
      .ok (okManifestOf (sameSourceManifest.to_real_manifest wSid wLayout []),
           okPathsOf (sameSourceManifest.to_real_manifest wSid wLayout [])) :=
    by decide
  exact claim_C1_cross_table_source_consistency.1 sameSourceManifest wSid
    wLayout [] _ _ hok _ (by decide) _ (by decide) (by decide)

/-- Claim C2, counterexample: with identical canonical source identities in
two tables, interpretation succeeds but the dependency list carries two
entries named `foo`, not exactly one merged entry. -/
theorem claim_C2_counterexample :
    sameSourceManifest.to_real_manifest wSid wLayout [] =
      .ok (okManifestOf (sameSourceManifest.to_real_manifest wSid wLayout []),
           okPathsOf (sameSourceManifest.to_real_manifest wSid wLayout [])) ∧
    (okManifestOf (sameSourceManifest.to_real_manifest wSid
        wLayout [])).summary.deps.countP (fun d => d.name == "foo") = 2 := by
  exact ⟨by decide, by decide⟩

/-- Claim C2 as amended: with identical canonical source identities in two
tables, interpretation succeeds and the dependency list carries one entry
per declaration — two entries named `foo`, both with the same source
identity; no merging occurs. -/
theorem claim_C2_one_entry_per_declaration :
    sameSourceManifest.to_real_manifest wSid wLayout [] =
      .ok (okManifestOf (sameSourceManifest.to_real_manifest wSid wLayout []),
           okPathsOf (sameSourceManifest.to_real_manifest wSid wLayout [])) ∧
    (okManifestOf (sameSourceManifest.to_real_manifest wSid
        wLayout [])).summary.deps.countP (fun d => d.name == "foo") = 2 ∧
    ((okManifestOf (sameSourceManifest.to_real_manifest wSid
        wLayout [])).summary.deps.headD default).name = "foo" ∧
    ((okManifestOf (sameSourceManifest.to_real_manifest wSid
        wLayout [])).summary.deps.getD 1 default).name = "foo" ∧
    ((okManifestOf (sameSourceManifest.to_real_manifest wSid
        wLayout [])).summary.deps.headD default).source_id =
      ((okManifestOf (sameSourceManifest.to_real_manifest wSid
        wLayout [])).summary.deps.getD 1 default).source_id := by
  refine ⟨by decide, by decide, by decide, by decide, by decide⟩

/-- Claim C8: duplicate target names within one kind abort interpretation
with a hard failure naming the duplicate (successful interpretation forces
pairwise-distinct names per kind), while duplicate source paths across all
targets only yield a non-fatal warning naming the shared path on a
successful result. -/
theorem claim_C8_target_uniqueness :
    (∀ (self : TomlManifest) (sid : SourceId) (layout : Layout)
        (fs : List FsPath) (man : Manifest) (paths : List FsPath)
        (project : TomlProject),
      self.to_real_manifest sid layout fs = .ok (man, paths) →
      self.getProject = .ok project →
      (self.binsOf layout project.name).Pairwise
        (fun a b => a.nameStr ≠ b.nameStr) ∧
      (self.examplesOf layout).Pairwise (fun a b => a.nameStr ≠ b.nameStr) ∧
      (self.benchesOf layout).Pairwise (fun a b => a.nameStr ≠ b.nameStr) ∧
      (self.testsOf layout).Pairwise (fun a b => a.nameStr ≠ b.nameStr)) ∧
    (∀ (self : TomlManifest) (sid : SourceId) (layout : Layout)
        (fs : List FsPath) (man : Manifest) (paths : List FsPath) (w : String),
      self.to_real_manifest sid layout fs = .ok (man, paths) →
      unique_build_targets man.targets layout = .error w →
      ("file found to be present in multiple build targets: " ++ w) ∈
        man.warnings) ∧
    wDupNameManifest.to_real_manifest wSid wLayout [] =
      .error "found duplicate binary name app, but all binary targets must have a unique name" ∧
    wDupPathManifest.to_real_manifest wSid wLayout [] =
      .ok (okManifestOf (wDupPathManifest.to_real_manifest wSid wLayout []),
           okPathsOf (wDupPathManifest.to_real_manifest wSid wLayout [])) ∧
    "file found to be present in multiple build targets: /pkg/src/main.rs" ∈
      (okManifestOf (wDupPathManifest.to_real_manifest wSid
        wLayout [])).warnings := by
  refine ⟨?_, ?_, by decide, by decide, by decide⟩
  · intro self sid layout fs man paths project h hproj
    obtain ⟨project', lib, cx, hproj', _, hu1, hu2, hu3, hu4, _⟩ :=
      to_real_manifest_ok_inv h
    have hpp : project' = project := by
      have := hproj'.symm.trans hproj
      exact Except.ok.inj this
    subst hpp
    exact ⟨unique_names_pairwise hu1, unique_names_pairwise hu2,
      unique_names_pairwise hu3, unique_names_pairwise hu4⟩
  · intro self sid layout fs man paths w h hw
    obtain ⟨project, lib, cx, _, _, _, _, _, _, _, _, _, hwarn⟩ :=
      to_real_manifest_ok_inv h
    exact hwarn w hw

/-- Witness for claim C8 at the concrete shared-path manifest. -/
theorem claim_C8_witness :
    (wDupPathManifest.binsOf wLayout "pkg").Pairwise
      (fun a b => a.nameStr ≠ b.nameStr) ∧
    ("file found to be present in multiple build targets: /pkg/src/main.rs") ∈
      (okManifestOf (wDupPathManifest.to_real_manifest wSid
        wLayout [])).warnings := by
  have hok : wDupPathManifest.to_real_manifest wSid wLayout [] =
      .ok (okManifestOf (wDupPathManifest.to_real_manifest wSid wLayout []),
           okPathsOf (wDupPathManifest.to_real_manifest wSid wLayout [])) :=
    by decide
  constructor
  · exact (claim_C8_target_uniqueness.1 wDupPathManifest wSid wLayout []
      _ _ { name := "pkg", version := "1.0.0" } hok (by decide)).1
  · exact claim_C8_target_uniqueness.2.1 wDupPathManifest wSid wLayout []
      _ _ "/pkg/src/main.rs" hok (by decide)

end CargoToml
